import Mathlib

/-!
Verification of the social-state synchronizer of the `go-steam` repository:
the social caches (`socialcache.ChatsList`, `socialcache.GroupsList`,
`socialcache.FriendsList`) and the packet handlers of `social.go`
(`handleFriendsList`, `handleChatEnter`, `handleChatMemberInfo`,
`handleFriendMsg`, `readChatMember`).

Go maps (`map[steamid.SteamId]*T`) are embedded as association lists over
`Nat` keys (`SteamId` is a 64-bit value; we use `Nat` and make the account
type field explicit where the code inspects it).  Key-based insertion
replaces the first binding of the key (Go map assignment), deletion drops
every binding of the key (Go `delete`); on lists whose keys are distinct —
which is every list a Go map can denote — these agree with map semantics.

Because `Chat.ChatMembers` is itself a Go map (a reference type), a copied
`Chat` struct shares the roster object with the cache.  To model this the
embedding gives `ChatsList` an explicit roster heap: `Chat.chatMembers` is
an optional reference (`Option Nat`, `none` is Go's nil map) into
`rosterHeap`, and reading a roster dereferences the heap.
-/

namespace GoSteam

universe u

variable {α : Type u}

/-- Lookup of a key in an association list: the value of the first binding,
mirroring a Go map read. -/
def alLookup (k : Nat) : List (Nat × α) → Option α
  | [] => none
  | (k1, v) :: rest => if k1 = k then some v else alLookup k rest

/-- Map assignment `m[k] = v`: replace the first binding of `k`, or append a
new binding if the key is absent. -/
def alUpsert (k : Nat) (v : α) : List (Nat × α) → List (Nat × α)
  | [] => [(k, v)]
  | (k1, v1) :: rest =>
      if k1 = k then (k, v) :: rest else (k1, v1) :: alUpsert k v rest

/-- Map deletion `delete(m, k)`: drop every binding of `k`. -/
def alErase (k : Nat) : List (Nat × α) → List (Nat × α)
  | [] => []
  | (k1, v1) :: rest =>
      if k1 = k then alErase k rest else (k1, v1) :: alErase k rest

/-- The keys of an association list, in order. -/
def alKeys (l : List (Nat × α)) : List Nat :=
  l.map Prod.fst

/-- Number of bindings of a given key. -/
def alCountKey (k : Nat) (l : List (Nat × α)) : Nat :=
  (l.filter (fun p => p.fst == k)).length

theorem alLookup_upsert_self (k : Nat) (v : α) (l : List (Nat × α)) :
    alLookup k (alUpsert k v l) = some v := by
  induction l with
  | nil => simp [alUpsert, alLookup]
  | cons p rest ih =>
      obtain ⟨k1, v1⟩ := p
      by_cases h : k1 = k
      · simp [alUpsert, alLookup, h]
      · simp [alUpsert, alLookup, h, ih]

theorem alLookup_upsert_ne (k k2 : Nat) (v : α) (l : List (Nat × α))
    (h : k2 ≠ k) : alLookup k2 (alUpsert k v l) = alLookup k2 l := by
  have h2 : ¬ k = k2 := fun hh => h hh.symm
  induction l with
  | nil => simp [alUpsert, alLookup, h2]
  | cons p rest ih =>
      obtain ⟨k1, v1⟩ := p
      by_cases h1 : k1 = k
      · subst h1
        simp [alUpsert, alLookup, h2]
      · simp [alUpsert, alLookup, h1, ih]

theorem alUpsert_idem (k : Nat) (v : α) (l : List (Nat × α)) :
    alUpsert k v (alUpsert k v l) = alUpsert k v l := by
  induction l with
  | nil => simp [alUpsert]
  | cons p rest ih =>
      obtain ⟨k1, v1⟩ := p
      by_cases h : k1 = k
      · simp [alUpsert, h]
      · simp [alUpsert, h, ih]

theorem alUpsert_lookup_eq (k : Nat) (v : α) (l : List (Nat × α))
    (h : alLookup k l = some v) : alUpsert k v l = l := by
  induction l with
  | nil => simp [alLookup] at h
  | cons p rest ih =>
      obtain ⟨k1, v1⟩ := p
      by_cases h1 : k1 = k
      · simp [alLookup, h1] at h
        simp [alUpsert, h1, h]
      · simp [alLookup, h1] at h
        simp [alUpsert, h1, ih h]

theorem alLookup_erase_self (k : Nat) (l : List (Nat × α)) :
    alLookup k (alErase k l) = none := by
  induction l with
  | nil => simp [alErase, alLookup]
  | cons p rest ih =>
      obtain ⟨k1, v1⟩ := p
      by_cases h : k1 = k
      · simpa [alErase, h] using ih
      · simpa [alErase, alLookup, h] using ih

theorem alLookup_erase_ne (k k2 : Nat) (l : List (Nat × α)) (h : k2 ≠ k) :
    alLookup k2 (alErase k l) = alLookup k2 l := by
  induction l with
  | nil => simp [alErase, alLookup]
  | cons p rest ih =>
      obtain ⟨k1, v1⟩ := p
      by_cases h1 : k1 = k
      · subst h1
        have h2 : ¬ k1 = k2 := fun hh => h hh.symm
        simpa [alErase, alLookup, h2] using ih
      · simp [alErase, alLookup, h1]
        by_cases h2 : k1 = k2
        · simp [h2]
        · simp [h2, ih]

theorem alErase_idem (k : Nat) (l : List (Nat × α)) :
    alErase k (alErase k l) = alErase k l := by
  induction l with
  | nil => simp [alErase]
  | cons p rest ih =>
      obtain ⟨k1, v1⟩ := p
      by_cases h : k1 = k
      · simpa [alErase, h] using ih
      · simp [alErase, h, ih]

theorem alKeys_upsert_mem (k : Nat) (v : α) (l : List (Nat × α))
    (h : k ∈ alKeys l) : alKeys (alUpsert k v l) = alKeys l := by
  induction l with
  | nil => simp [alKeys] at h
  | cons p rest ih =>
      obtain ⟨k1, v1⟩ := p
      by_cases h1 : k1 = k
      · simp [alUpsert, alKeys, h1]
      · have h2 : k ∈ alKeys rest := by
          rcases List.mem_cons.mp (show k ∈ k1 :: alKeys rest from h) with hc | hc
          · exact absurd hc.symm h1
          · exact hc
        simp [alUpsert, alKeys, h1]
        simpa [alKeys] using ih h2

theorem alKeys_upsert_not_mem (k : Nat) (v : α) (l : List (Nat × α))
    (h : k ∉ alKeys l) : alKeys (alUpsert k v l) = alKeys l ++ [k] := by
  induction l with
  | nil => simp [alUpsert, alKeys]
  | cons p rest ih =>
      obtain ⟨k1, v1⟩ := p
      have h1 : k1 ≠ k := by
        intro hh
        exact h (show k ∈ k1 :: alKeys rest from List.mem_cons.mpr (Or.inl hh.symm))
      have h2 : k ∉ alKeys rest := by
        intro hh
        exact h (show k ∈ k1 :: alKeys rest from List.mem_cons.mpr (Or.inr hh))
      simp [alUpsert, alKeys, h1]
      simpa [alKeys] using ih h2

theorem alKeys_nodup_upsert (k : Nat) (v : α) (l : List (Nat × α))
    (h : (alKeys l).Nodup) : (alKeys (alUpsert k v l)).Nodup := by
  by_cases hm : k ∈ alKeys l
  · rw [alKeys_upsert_mem k v l hm]
    exact h
  · rw [alKeys_upsert_not_mem k v l hm]
    rw [List.nodup_append]
    exact ⟨h, List.nodup_singleton k, by simpa using hm⟩

theorem alKeys_erase_subset (k k2 : Nat) (l : List (Nat × α))
    (h : k2 ∈ alKeys (alErase k l)) : k2 ∈ alKeys l := by
  induction l with
  | nil => simp [alErase, alKeys] at h
  | cons p rest ih =>
      obtain ⟨k1, v1⟩ := p
      by_cases h1 : k1 = k
      · simp [alErase, h1] at h
        simp [alKeys]
        right
        simpa [alKeys] using ih h
      · simp [alErase, alKeys, h1] at h
        rcases h with h | h
        · simp [alKeys, h]
        · simp [alKeys]
          right
          simpa [alKeys] using ih (by simpa [alKeys] using h)

theorem alKeys_nodup_erase (k : Nat) (l : List (Nat × α))
    (h : (alKeys l).Nodup) : (alKeys (alErase k l)).Nodup := by
  induction l with
  | nil => simp [alErase, alKeys]
  | cons p rest ih =>
      obtain ⟨k1, v1⟩ := p
      have hc : k1 ∉ alKeys rest ∧ (alKeys rest).Nodup := by
        simpa [alKeys] using h
      by_cases h1 : k1 = k
      · simpa [alErase, h1] using ih hc.2
      · have hk1 : k1 ∉ alKeys (alErase k rest) :=
          fun hh => hc.1 (alKeys_erase_subset k k1 rest hh)
        simp [alErase, alKeys, h1]
        exact ⟨by simpa [alKeys] using hk1, by simpa [alKeys] using ih hc.2⟩

theorem alLookup_isSome_iff (k : Nat) (l : List (Nat × α)) :
    (alLookup k l).isSome ↔ k ∈ alKeys l := by
  induction l with
  | nil => simp [alLookup, alKeys]
  | cons p rest ih =>
      obtain ⟨k1, v1⟩ := p
      by_cases h : k1 = k
      · simp [alLookup, alKeys, h]
      · simp [alLookup, alKeys, h, Ne.symm h, ih]

theorem alLookup_eq_none_iff (k : Nat) (l : List (Nat × α)) :
    alLookup k l = none ↔ k ∉ alKeys l := by
  rw [← alLookup_isSome_iff]
  cases alLookup k l <;> simp

theorem alMem_upsert (k : Nat) (v : α) (l : List (Nat × α))
    (p : Nat × α) (h : p ∈ alUpsert k v l) : p = (k, v) ∨ p ∈ l := by
  induction l with
  | nil =>
      simp [alUpsert] at h
      exact Or.inl h
  | cons q rest ih =>
      obtain ⟨k1, v1⟩ := q
      by_cases h1 : k1 = k
      · simp [alUpsert, h1] at h
        rcases h with h | h
        · exact Or.inl (by simp [h])
        · exact Or.inr (by simp [h])
      · simp [alUpsert, h1] at h
        rcases h with h | h
        · exact Or.inr (by simp [h])
        · rcases ih h with h2 | h2
          · exact Or.inl h2
          · exact Or.inr (by simp [h2])

theorem alMem_erase (k : Nat) (l : List (Nat × α)) (p : Nat × α)
    (h : p ∈ alErase k l) : p ∈ l := by
  induction l with
  | nil => exact h
  | cons q rest ih =>
      obtain ⟨k1, v1⟩ := q
      by_cases h1 : k1 = k
      · simp [alErase, h1] at h
        simp [ih h]
      · simp [alErase, h1] at h
        rcases h with h | h
        · simp [h]
        · simp [ih h]

theorem alLookup_mem (k : Nat) (v : α) (l : List (Nat × α))
    (h : alLookup k l = some v) : (k, v) ∈ l := by
  induction l with
  | nil => simp [alLookup] at h
  | cons p rest ih =>
      obtain ⟨k1, v1⟩ := p
      by_cases h1 : k1 = k
      · simp [alLookup, h1] at h
        simp [h1, h]
      · simp [alLookup, h1] at h
        simp [ih h]

theorem alCountKey_upsert_nodup (k : Nat) (v : α) (l : List (Nat × α))
    (h : (alKeys l).Nodup) : alCountKey k (alUpsert k v l) = 1 := by
  induction l with
  | nil => simp [alUpsert, alCountKey]
  | cons p rest ih =>
      obtain ⟨k1, v1⟩ := p
      have hc : k1 ∉ alKeys rest ∧ (alKeys rest).Nodup := by
        simpa [alKeys] using h
      by_cases h1 : k1 = k
      · subst h1
        have hzero : rest.filter (fun p => p.fst == k1) = [] := by
          rw [List.filter_eq_nil_iff]
          intro p hp
          simp only [beq_iff_eq]
          intro heq
          exact hc.1 (by simpa [alKeys, heq] using List.mem_map_of_mem Prod.fst hp)
        simp [alUpsert, alCountKey, hzero]
      · simp [alUpsert, alCountKey, h1]
        simpa [alCountKey] using ih hc.2

/-! ## The social caches (`socialcache` package)

`ChatMember`, `Chat`, `ChatsList` and its methods embed
`socialcache/chats.go`; `Group`, `GroupsList` and its methods embed
`socialcache/groups.go`.  Enum-typed fields (`EChatPermission`,
`EClanPermission`) are `Int` (Go `int32`); unsigned fields are `Nat`.
Unmentioned struct fields default to Go zero values. -/

/-- A Chat Member (`socialcache.ChatMember`). -/
structure ChatMember where
  steamId : Nat := 0
  chatPermissions : Int := 0
  clanPermissions : Int := 0
deriving DecidableEq

/-- A Chat (`socialcache.Chat`).  `chatMembers` is the Go map field
`ChatMembers map[steamid.SteamId]ChatMember`: a reference into the roster
heap, `none` being Go's nil map. -/
structure Chat where
  steamId : Nat := 0
  groupId : Nat := 0
  chatMembers : Option Nat := none
deriving DecidableEq

/-- `socialcache.ChatsList`: the chat table plus the heap of roster map
objects that `Chat.chatMembers` references point into.  `nextRef` is the
next fresh roster reference (`make(map[...])` allocates a new object). -/
structure ChatsList where
  byId : List (Nat × Chat)
  rosterHeap : List (Nat × List (Nat × ChatMember))
  nextRef : Nat
deriving DecidableEq

/-- `socialcache.NewChatsList`. -/
def NewChatsList : ChatsList :=
  { byId := [], rosterHeap := [], nextRef := 0 }

/-- `ChatsList.Add`: insert only if no entry with that key exists. -/
def ChatsList.Add (list : ChatsList) (chat : Chat) : ChatsList :=
  match alLookup chat.steamId list.byId with
  | some _ => list
  | none => { list with byId := alUpsert chat.steamId chat list.byId }

/-- `ChatsList.Remove`. -/
def ChatsList.Remove (list : ChatsList) (id : Nat) : ChatsList :=
  { list with byId := alErase id list.byId }

/-- `ChatsList.AddChatMember`: bootstrap the chat entry if absent, allocate
the roster map if nil, then upsert the member. -/
def ChatsList.AddChatMember (list : ChatsList) (id : Nat) (member : ChatMember) :
    ChatsList :=
  let chat0 : Chat :=
    match alLookup id list.byId with
    | some c => c
    | none => { steamId := id }
  match chat0.chatMembers with
  | some ref =>
      let roster := (alLookup ref list.rosterHeap).getD []
      { list with
        byId := alUpsert id chat0 list.byId
        rosterHeap :=
          alUpsert ref (alUpsert member.steamId member roster) list.rosterHeap }
  | none =>
      let ref := list.nextRef
      let chat1 : Chat := { chat0 with chatMembers := some ref }
      { byId := alUpsert id chat1 list.byId
        rosterHeap :=
          alUpsert ref (alUpsert member.steamId member []) list.rosterHeap
        nextRef := ref + 1 }

/-- `ChatsList.RemoveChatMember`: no-op if the chat or its roster map is
absent, otherwise delete the member key. -/
def ChatsList.RemoveChatMember (list : ChatsList) (id : Nat) (member : Nat) :
    ChatsList :=
  match alLookup id list.byId with
  | none => list
  | some chat =>
      match chat.chatMembers with
      | none => list
      | some ref =>
          let roster := (alLookup ref list.rosterHeap).getD []
          { list with
            rosterHeap := alUpsert ref (alErase member roster) list.rosterHeap }

/-- `ChatsList.GetCopy`: the returned map holds copies of the `Chat`
structs; each copied struct still carries the same `chatMembers`
reference (Go copies the map header, not the map). -/
def ChatsList.GetCopy (list : ChatsList) : List (Nat × Chat) :=
  list.byId

/-- `ChatsList.ById`: copy of one entry, `none` for the not-found error. -/
def ChatsList.ById (list : ChatsList) (id : Nat) : Option Chat :=
  alLookup id list.byId

/-- `ChatsList.Count`. -/
def ChatsList.Count (list : ChatsList) : Nat :=
  list.byId.length

/-- Reading a chat's roster through the heap: what Go code sees when it
ranges over `chat.ChatMembers` (nil map gives `none`). -/
def ChatsList.derefRoster (list : ChatsList) (chat : Chat) :
    Option (List (Nat × ChatMember)) :=
  match chat.chatMembers with
  | none => none
  | some ref => some ((alLookup ref list.rosterHeap).getD [])

/-- The roster of the chat stored under `id`, as member list (empty when
the chat or its roster map is absent). -/
def ChatsList.rosterOf (list : ChatsList) (id : Nat) : List (Nat × ChatMember) :=
  match alLookup id list.byId with
  | none => []
  | some chat => (list.derefRoster chat).getD []

/-- A Group (`socialcache.Group`).  `relationship` holds the
`EClanRelationship` value; the four counts are `uint32`. -/
structure Group where
  steamId : Nat := 0
  name : String := ""
  avatar : String := ""
  relationship : Nat := 0
  memberTotalCount : Nat := 0
  memberOnlineCount : Nat := 0
  memberChattingCount : Nat := 0
  memberInGameCount : Nat := 0
deriving DecidableEq

/-- `socialcache.GroupsList`. -/
structure GroupsList where
  byId : List (Nat × Group)
deriving DecidableEq

/-- `socialcache.NewGroupsList`. -/
def NewGroupsList : GroupsList :=
  { byId := [] }

/-- `GroupsList.Add`: insert only if no entry with that key exists. -/
def GroupsList.Add (list : GroupsList) (group : Group) : GroupsList :=
  match alLookup group.steamId list.byId with
  | some _ => list
  | none => { byId := alUpsert group.steamId group list.byId }

/-- `GroupsList.Remove`. -/
def GroupsList.Remove (list : GroupsList) (id : Nat) : GroupsList :=
  { byId := alErase id list.byId }

/-- `GroupsList.GetCopy`: `Group` has only value fields, so the copies are
fully independent of the cache. -/
def GroupsList.GetCopy (list : GroupsList) : List (Nat × Group) :=
  list.byId

/-- `GroupsList.ById`: copy of one entry, `none` for the not-found error. -/
def GroupsList.ById (list : GroupsList) (id : Nat) : Option Group :=
  alLookup id list.byId

/-- `GroupsList.Count`. -/
def GroupsList.Count (list : GroupsList) : Nat :=
  list.byId.length

/-- `GroupsList.SetName`: mutate the field in place if the entry exists. -/
def GroupsList.SetName (list : GroupsList) (id : Nat) (name : String) :
    GroupsList :=
  match alLookup id list.byId with
  | some val => { byId := alUpsert id { val with name := name } list.byId }
  | none => list

/-- `GroupsList.SetAvatar`. -/
def GroupsList.SetAvatar (list : GroupsList) (id : Nat) (hash : String) :
    GroupsList :=
  match alLookup id list.byId with
  | some val => { byId := alUpsert id { val with avatar := hash } list.byId }
  | none => list

/-- `GroupsList.SetRelationship`. -/
def GroupsList.SetRelationship (list : GroupsList) (id : Nat)
    (relationship : Nat) : GroupsList :=
  match alLookup id list.byId with
  | some val =>
      { byId := alUpsert id { val with relationship := relationship } list.byId }
  | none => list

/-- `GroupsList.SetMemberTotalCount`. -/
def GroupsList.SetMemberTotalCount (list : GroupsList) (id : Nat)
    (count : Nat) : GroupsList :=
  match alLookup id list.byId with
  | some val =>
      { byId := alUpsert id { val with memberTotalCount := count } list.byId }
  | none => list

/-- `GroupsList.SetMemberOnlineCount`. -/
def GroupsList.SetMemberOnlineCount (list : GroupsList) (id : Nat)
    (count : Nat) : GroupsList :=
  match alLookup id list.byId with
  | some val =>
      { byId := alUpsert id { val with memberOnlineCount := count } list.byId }
  | none => list

/-- `GroupsList.SetMemberChattingCount`. -/
def GroupsList.SetMemberChattingCount (list : GroupsList) (id : Nat)
    (count : Nat) : GroupsList :=
  match alLookup id list.byId with
  | some val =>
      { byId := alUpsert id { val with memberChattingCount := count } list.byId }
  | none => list

/-- `GroupsList.SetMemberInGameCount`. -/
def GroupsList.SetMemberInGameCount (list : GroupsList) (id : Nat)
    (count : Nat) : GroupsList :=
  match alLookup id list.byId with
  | some val =>
      { byId := alUpsert id { val with memberInGameCount := count } list.byId }
  | none => list

/-- Modelled from the spec: the `Friend` record of the Friends cache
(§3 of the spec: identifier, relationship, persona name, avatar
fingerprint, presence state, presence-state flags, currently-played game
identifiers/name).  `socialcache/friends.go` is not among the given
sources. -/
structure Friend where
  steamId : Nat := 0
  name : String := ""
  avatar : String := ""
  relationship : Nat := 0
  personaState : Nat := 0
  personaStateFlags : Nat := 0
  gameAppId : Nat := 0
  gameId : Nat := 0
  gameName : String := ""
deriving DecidableEq

/-- Modelled from the spec: the Friends Entity Cache, one of the three
instantiations of the generic cache contract of §4.1. -/
structure FriendsList where
  byId : List (Nat × Friend)
deriving DecidableEq

/-- Modelled from the spec: a fresh, empty Friends cache. -/
def NewFriendsList : FriendsList :=
  { byId := [] }

/-- Modelled from the spec: `Add(entity)` inserts only if no entry with
that key exists; no-op otherwise. -/
def FriendsList.Add (list : FriendsList) (friend : Friend) : FriendsList :=
  match alLookup friend.steamId list.byId with
  | some _ => list
  | none => { byId := alUpsert friend.steamId friend list.byId }

/-- Modelled from the spec: `Remove(id)` deletes if present. -/
def FriendsList.Remove (list : FriendsList) (id : Nat) : FriendsList :=
  { byId := alErase id list.byId }

/-- Modelled from the spec: `ById(id)` returns a copy of one entry,
`none` signalling absence. -/
def FriendsList.ById (list : FriendsList) (id : Nat) : Option Friend :=
  alLookup id list.byId

/-- Modelled from the spec: `Count()`. -/
def FriendsList.Count (list : FriendsList) : Nat :=
  list.byId.length

/-! ## Byte-cursor readers (`rwu` package)

The `rwu` package (`ReadString`, `ReadByte`, `ReadBytes`, `ReadUint64`,
`ReadInt32`) is part of this repository but not among the given sources,
so the readers are modelled from the spec's §4.3 layout description:
length-prefixed strings, single reserved bytes, an 8-byte little-endian
unsigned integer, 4-byte little-endian signed integers.  A cursor is a
byte list; each reader returns the decoded value and the advanced cursor,
or `none` when the cursor is exhausted before the value completes (the
Go `error` return).  On failure the Go call-site idiom `x, _ := Read...`
keeps the zero value of the type, so each reader also gets a
default-on-error wrapper (suffix `D`) that yields the zero value and an
empty remaining cursor. -/

/-- Little-endian value of a byte list. -/
def leVal : List Nat → Nat
  | [] => 0
  | b :: rest => b + 256 * leVal rest

/-- Two's-complement reading of a 32-bit value as a signed integer. -/
def toInt32 (v : Nat) : Int :=
  if v < 2 ^ 31 then (v : Int) else (v : Int) - 2 ^ 32

/-- Modelled from the spec: read one byte. -/
def ReadByte : List Nat → Option (Nat × List Nat)
  | [] => none
  | b :: rest => some (b, rest)

/-- Modelled from the spec: read a counted run of raw bytes. -/
def ReadBytes (n : Nat) (c : List Nat) : Option (List Nat × List Nat) :=
  if n ≤ c.length then some (c.take n, c.drop n) else none

/-- Modelled from the spec: read a length-prefixed string (one length
byte, then that many content bytes). -/
def ReadString : List Nat → Option (List Nat × List Nat)
  | [] => none
  | n :: rest =>
      if n ≤ rest.length then some (rest.take n, rest.drop n) else none

/-- Modelled from the spec: read an 8-byte little-endian unsigned
integer. -/
def ReadUint64 (c : List Nat) : Option (Nat × List Nat) :=
  if 8 ≤ c.length then some (leVal (c.take 8), c.drop 8) else none

/-- Modelled from the spec: read a 4-byte little-endian signed integer. -/
def ReadInt32 (c : List Nat) : Option (Int × List Nat) :=
  if 4 ≤ c.length then some (toInt32 (leVal (c.take 4)), c.drop 4) else none

/-- `x, _ := ReadByte(r)`: discard the error, zero value on failure. -/
def ReadByteD (c : List Nat) : Nat × List Nat :=
  match ReadByte c with
  | some r => r
  | none => (0, [])

/-- `x, _ := ReadBytes(r, n)`: discard the error. -/
def ReadBytesD (n : Nat) (c : List Nat) : List Nat × List Nat :=
  match ReadBytes n c with
  | some r => r
  | none => ([], [])

/-- `x, _ := ReadString(r)`: discard the error. -/
def ReadStringD (c : List Nat) : List Nat × List Nat :=
  match ReadString c with
  | some r => r
  | none => ([], [])

/-- `x, _ := ReadUint64(r)`: discard the error. -/
def ReadUint64D (c : List Nat) : Nat × List Nat :=
  match ReadUint64 c with
  | some r => r
  | none => (0, [])

/-- `x, _ := ReadInt32(r)`: discard the error. -/
def ReadInt32D (c : List Nat) : Int × List Nat :=
  match ReadInt32 c with
  | some r => r
  | none => (0, [])

/-! ## The binary roster decoder (`readChatMember` in `social.go`) -/

/-- `readChatMember` of `social.go`, embedded exactly as written: every
reader error is discarded (`_, _ :=` / `x, _ :=`), the function has no
error return and always yields `(id, chatPermissions, clanPermissions)`
plus the advanced cursor. -/
def readChatMember (r0 : List Nat) : (Nat × Int × Int) × List Nat :=
  let p1 := ReadStringD r0
  let p2 := ReadByteD p1.2
  let p3 := ReadStringD p2.2
  let p4 := ReadUint64D p3.2
  let p5 := ReadByteD p4.2
  let p6 := ReadStringD p5.2
  let p7 := ReadInt32D p6.2
  let p8 := ReadByteD p7.2
  let p9 := ReadStringD p8.2
  let p10 := ReadInt32D p9.2
  ((p4.1, p7.1, p10.1), p10.2)

/-- The member-record decoder as the spec's §4.3 words it: same layout,
but it "fails with a MalformedRecord error if the cursor is exhausted
before the layout completes" — the `none` result.  Kept for comparison
with `readChatMember` above. -/
def readChatMemberSpec (r0 : List Nat) :
    Option ((Nat × Int × Int) × List Nat) :=
  (ReadString r0).bind fun p1 =>
  (ReadByte p1.2).bind fun p2 =>
  (ReadString p2.2).bind fun p3 =>
  (ReadUint64 p3.2).bind fun p4 =>
  (ReadByte p4.2).bind fun p5 =>
  (ReadString p5.2).bind fun p6 =>
  (ReadInt32 p6.2).bind fun p7 =>
  (ReadByte p7.2).bind fun p8 =>
  (ReadString p8.2).bind fun p9 =>
  (ReadInt32 p9.2).map fun p10 => ((p4.1, p7.1, p10.1), p10.2)

/-! ## Enum constants (`protocol/steamlang`)

The `steamlang` package is generated protocol code of this repository, not
among the given sources; the constants are modelled from the spec with
their standard Steam language values.  No claim depends on the numeric
value of `EClientPersonaStateFlag_DefaultInfoRequest`. -/

def EAccountType_Individual : Nat := 1

def EAccountType_Clan : Nat := 7

def EClanRelationship_None : Nat := 0

def EFriendRelationship_None : Nat := 0

def EChatInfoType_StateChange : Nat := 1

def EChatMemberStateChange_Entered : Int := 1

def EChatMemberStateChange_Left : Int := 2

def EChatMemberStateChange_Disconnected : Int := 4

def EChatMemberStateChange_Kicked : Int := 8

def EChatMemberStateChange_Banned : Int := 16

def EClientPersonaStateFlag_DefaultInfoRequest : Nat := 1062

/-- Modelled from the spec: a SteamId "encoding an account number and an
account-type tag ... plus an instance/session component".
`GetAccountType` extracts the 4-bit account-type tag, which the standard
Steam identifier layout keeps in bits 52–55. -/
def GetAccountType (id : Nat) : Nat :=
  id / 2 ^ 52 % 16

/-! ## The update dispatcher (`social.go` handlers)

`Social` keeps the three caches (the local persona fields play no part in
the claims about these handlers).  A handler returns its new state
together with the events it emits (`client.Emit`) and the outbound
messages it writes (`client.Write`), in order. -/

/-- The cache-holding part of `Social`. -/
structure Social where
  friends : FriendsList
  groups : GroupsList
  chats : ChatsList
deriving DecidableEq

/-- `newSocial`: all three caches empty. -/
def newSocial : Social :=
  { friends := NewFriendsList, groups := NewGroupsList, chats := NewChatsList }

/-- Events emitted by the handlers under proof. -/
inductive Event where
  | friendState (id : Nat) (relationship : Nat)
  | groupState (id : Nat) (relationship : Nat)
  | friendsList
  | chatMsg (chatRoomId : Nat) (chatterId : Nat) (message : List Nat)
      (entryType : Nat) (timestamp : Nat)
  | chatEnter (chatRoomId : Nat) (friendId : Nat) (chatRoomType : Nat)
      (ownerId : Nat) (clanId : Nat) (chatFlags : Nat) (enterResponse : Nat)
      (name : List Nat)
  | chatMemberInfo (chatRoomId : Nat) (infoType : Nat) (actedOn : Nat)
      (stateChange : Int) (actedBy : Nat)
deriving DecidableEq

/-- Outbound client messages written by the handlers under proof. -/
inductive Outbound where
  | requestFriendData (requestedInfo : Nat) (friends : List Nat)
deriving DecidableEq

/-- `Social.RequestFriendListInfo`: one `ClientRequestFriendData` message
carrying the identifiers (`ToUint64` is the identity here). -/
def RequestFriendListInfo (ids : List Nat) (requestedInfo : Nat) : Outbound :=
  Outbound.requestFriendData requestedInfo ids

/-- One entry of `CMsgClientFriendsList`. -/
structure FriendEntry where
  ulfriendid : Nat := 0
  efriendrelationship : Nat := 0
deriving DecidableEq

/-- `CMsgClientFriendsList`. -/
structure CMsgClientFriendsList where
  bincremental : Bool := false
  friends : List FriendEntry := []
deriving DecidableEq

/-- The body of `handleFriendsList`'s per-record loop: classify the record
by account type, remove on relationship none, add-if-absent otherwise,
and emit a per-entity event only for incremental batches. -/
def processFriendRecord (binc : Bool) (s : Social) (fr : FriendEntry) :
    Social × List Event :=
  let steamID := fr.ulfriendid
  if GetAccountType steamID = EAccountType_Clan then
    let rel := fr.efriendrelationship
    let s1 :=
      if rel = EClanRelationship_None then
        { s with groups := s.groups.Remove steamID }
      else
        { s with groups := s.groups.Add { steamId := steamID, relationship := rel } }
    (s1, if binc then [Event.groupState steamID rel] else [])
  else
    let rel := fr.efriendrelationship
    let s1 :=
      if rel = EFriendRelationship_None then
        { s with friends := s.friends.Remove steamID }
      else
        { s with friends := s.friends.Add { steamId := steamID, relationship := rel } }
    (s1, if binc then [Event.friendState steamID rel] else [])

/-- `handleFriendsList`: fold the per-record step over the batch; for a
non-incremental batch the loop also accumulates every record's identifier
(`friends = append(friends, steamID)` sits outside the clan/individual
branches), after which one info request is written and one batch-complete
event emitted. -/
def handleFriendsList (s : Social) (list : CMsgClientFriendsList) :
    Social × List Event × List Outbound :=
  let folded := list.friends.foldl
    (fun (acc : Social × List Event) fr =>
      let res := processFriendRecord list.bincremental acc.1 fr
      (res.1, acc.2 ++ res.2))
    (s, [])
  if list.bincremental then
    (folded.1, folded.2, [])
  else
    (folded.1, folded.2 ++ [Event.friendsList],
      [RequestFriendListInfo (list.friends.map (fun fr => fr.ulfriendid))
        EClientPersonaStateFlag_DefaultInfoRequest])

/-- `MsgClientChatEnter` (header fields; the member records follow in the
payload). -/
structure MsgClientChatEnter where
  steamIdChat : Nat := 0
  steamIdFriend : Nat := 0
  chatRoomType : Nat := 0
  steamIdOwner : Nat := 0
  steamIdClan : Nat := 0
  chatFlags : Nat := 0
  enterResponse : Nat := 0
  numMembers : Nat := 0
deriving DecidableEq

/-- The member loop of `handleChatEnter`: decode one record, skip 6
reserved bytes, add the member to the target chat's roster. -/
def chatEnterLoop (chatID : Nat) : Nat → ChatsList → List Nat →
    ChatsList × List Nat
  | 0, cl, r => (cl, r)
  | n + 1, cl, r =>
      let m := readChatMember r
      let skip := ReadBytesD 6 m.2
      chatEnterLoop chatID n
        (cl.AddChatMember chatID
          { steamId := m.1.1, chatPermissions := m.1.2.1,
            clanPermissions := m.1.2.2 })
        skip.2

/-- `handleChatEnter`: read the room name, add the Chat entry (with its
clan id), decode `numMembers` member records into the roster, then emit
the room-entered event. -/
def handleChatEnter (s : Social) (body : MsgClientChatEnter)
    (payload : List Nat) : Social × Event :=
  let pName := ReadStringD payload
  let pZero := ReadByteD pName.2
  let chatID := body.steamIdChat
  let clanID := body.steamIdClan
  let chats0 := s.chats.Add { steamId := chatID, groupId := clanID }
  let looped := chatEnterLoop chatID body.numMembers chats0 pZero.2
  ({ s with chats := looped.1 },
    Event.chatEnter body.steamIdChat body.steamIdFriend body.chatRoomType
      body.steamIdOwner body.steamIdClan body.chatFlags body.enterResponse
      pName.1)

/-- `MsgClientChatMemberInfo` (header fields). -/
structure MsgClientChatMemberInfo where
  steamIdChat : Nat := 0
  infoType : Nat := 0
deriving DecidableEq

/-- `handleChatMemberInfo`: only the state-change sub-type is handled;
"entered" decodes one member record and adds it, the leave-like codes
remove the acted-on member, and the member-info event is emitted either
way. -/
def handleChatMemberInfo (s : Social) (body : MsgClientChatMemberInfo)
    (payload : List Nat) : Social × List Event :=
  let chatID := body.steamIdChat
  if body.infoType = EChatInfoType_StateChange then
    let pOn := ReadUint64D payload
    let pState := ReadInt32D pOn.2
    let pBy := ReadUint64D pState.2
    let pZero := ReadByteD pBy.2
    let stateChange := pState.1
    let s1 :=
      if stateChange = EChatMemberStateChange_Entered then
        let m := readChatMember pZero.2
        { s with
          chats := s.chats.AddChatMember chatID
            { steamId := pOn.1, chatPermissions := m.1.2.1,
              clanPermissions := m.1.2.2 } }
      else if stateChange = EChatMemberStateChange_Banned ∨
          stateChange = EChatMemberStateChange_Kicked ∨
          stateChange = EChatMemberStateChange_Disconnected ∨
          stateChange = EChatMemberStateChange_Left then
        { s with chats := s.chats.RemoveChatMember chatID pOn.1 }
      else s
    (s1, [Event.chatMemberInfo chatID body.infoType pOn.1 stateChange pBy.1])
  else
    (s, [])

/-- `CMsgClientFriendMsgIncoming`. -/
structure CMsgClientFriendMsgIncoming where
  steamidFrom : Nat := 0
  chatEntryType : Nat := 0
  rtime32ServerTimestamp : Nat := 0
  message : List Nat := []
deriving DecidableEq

/-- `bytes.Split(payload, []byte{0x0})`: the runs of bytes between null
separators. -/
def bytesSplit : List Nat → List (List Nat)
  | [] => [[]]
  | b :: rest =>
      if b = 0 then [] :: bytesSplit rest
      else
        match bytesSplit rest with
        | [] => [[b]]
        | h :: t => (b :: h) :: t

/-- `handleFriendMsg`: truncate the payload at the first null byte
(`bytes.Split(msg, {0})[0]`) and emit the chat-message event; no cache is
touched. -/
def handleFriendMsg (s : Social) (body : CMsgClientFriendMsgIncoming) :
    Social × Event :=
  let message := (bytesSplit body.message).headD []
  (s, Event.chatMsg 0 body.steamidFrom message body.chatEntryType
    body.rtime32ServerTimestamp)

/-- The state reached from the fresh `Social` by a sequence of
relationship-list messages. -/
def applyFriendsLists (msgs : List CMsgClientFriendsList) : Social :=
  msgs.foldl (fun s m => (handleFriendsList s m).1) newSocial

/-! ## Claim C4: Add on an existing key is a no-op -/

theorem groupsAdd_present (gl : GroupsList) (g : Group)
    (h : (alLookup g.steamId gl.byId).isSome = true) : gl.Add g = gl := by
  cases hv : alLookup g.steamId gl.byId with
  | none => rw [hv] at h; simp at h
  | some val => simp [GroupsList.Add, hv]

theorem chatsAdd_present (cl : ChatsList) (c : Chat)
    (h : (alLookup c.steamId cl.byId).isSome = true) : cl.Add c = cl := by
  cases hv : alLookup c.steamId cl.byId with
  | none => rw [hv] at h; simp at h
  | some val => simp [ChatsList.Add, hv]

/-- C4: for every Entity Cache (shown for the Groups and Chats caches,
whose `Add` methods are the cited sources), `Add` of an entity whose key
already has an entry leaves the cache state fully unchanged; consequently
`Add(id, relationship=X)` followed by `Add(id, relationship=Y)` leaves the
stored record — its relationship included — equal to the first one. -/
theorem claim_C4_add_existing_noop (gl : GroupsList) (cl : ChatsList)
    (g : Group) (c : Chat) (gl0 : GroupsList) (g1 g2 : Group)
    (hg : (gl.ById g.steamId).isSome = true)
    (hc : (cl.ById c.steamId).isSome = true)
    (hid : g2.steamId = g1.steamId) (h0 : gl0.ById g1.steamId = none) :
    gl.Add g = gl ∧ cl.Add c = cl ∧
    (gl0.Add g1).Add g2 = gl0.Add g1 ∧
    ((gl0.Add g1).Add g2).ById g1.steamId = some g1 := by
  have hbase : (gl0.Add g1).ById g1.steamId = some g1 := by
    have h0' : alLookup g1.steamId gl0.byId = none := h0
    simp [GroupsList.Add, h0', GroupsList.ById, alLookup_upsert_self]
  have hnoop : (gl0.Add g1).Add g2 = gl0.Add g1 := by
    apply groupsAdd_present
    have h2 : alLookup g2.steamId (gl0.Add g1).byId = some g1 := by
      rw [hid]
      exact hbase
    simp [h2]
  exact ⟨groupsAdd_present gl g hg, chatsAdd_present cl c hc,
    hnoop, by rw [hnoop]; exact hbase⟩

/-- Witness for C4 at concrete caches: a Groups cache holding key 10, a
Chats cache holding key 20, and an empty cache receiving two `Add`s for
key 30 with different relationships. -/
theorem claim_C4_witness :
    (({ byId := [(10, { steamId := 10, relationship := 2 })] } : GroupsList).ById 10).isSome = true ∧
    (({ byId := [(20, { steamId := 20 })], rosterHeap := [], nextRef := 0 } : ChatsList).ById 20).isSome = true ∧
    (({ byId := [(10, { steamId := 10, relationship := 2 })] } : GroupsList).Add
        { steamId := 10, relationship := 3 } =
      { byId := [(10, { steamId := 10, relationship := 2 })] } ∧
    ({ byId := [(20, { steamId := 20 })], rosterHeap := [], nextRef := 0 } : ChatsList).Add
        { steamId := 20, groupId := 9 } =
      { byId := [(20, { steamId := 20 })], rosterHeap := [], nextRef := 0 } ∧
    ((NewGroupsList.Add { steamId := 30, relationship := 2 }).Add
        { steamId := 30, relationship := 3 } =
      NewGroupsList.Add { steamId := 30, relationship := 2 }) ∧
    ((NewGroupsList.Add { steamId := 30, relationship := 2 }).Add
        { steamId := 30, relationship := 3 }).ById 30 =
      some { steamId := 30, relationship := 2 }) :=
  ⟨by decide, by decide,
    claim_C4_add_existing_noop
      { byId := [(10, { steamId := 10, relationship := 2 })] }
      { byId := [(20, { steamId := 20 })], rosterHeap := [], nextRef := 0 }
      { steamId := 10, relationship := 3 } { steamId := 20, groupId := 9 }
      NewGroupsList { steamId := 30, relationship := 2 }
      { steamId := 30, relationship := 3 }
      (by decide) (by decide) (by decide) (by decide)⟩

/-! ## Claim C7: field setters on a missing key are no-ops -/

/-- C7: every field setter of the Groups cache invoked with an identifier
that has no entry leaves the cache state fully unchanged — no entry is
created, no other entry modified, and no error raised (the setters have
no error return at all). -/
theorem claim_C7_setters_missing_noop (gl : GroupsList) (id : Nat)
    (n a : String) (r c1 c2 c3 c4 : Nat) (h : gl.ById id = none) :
    gl.SetName id n = gl ∧ gl.SetAvatar id a = gl ∧
    gl.SetRelationship id r = gl ∧ gl.SetMemberTotalCount id c1 = gl ∧
    gl.SetMemberOnlineCount id c2 = gl ∧
    gl.SetMemberChattingCount id c3 = gl ∧
    gl.SetMemberInGameCount id c4 = gl := by
  have h' : alLookup id gl.byId = none := h
  refine ⟨?_, ?_, ?_, ?_, ?_, ?_, ?_⟩ <;>
    simp [GroupsList.SetName, GroupsList.SetAvatar, GroupsList.SetRelationship,
      GroupsList.SetMemberTotalCount, GroupsList.SetMemberOnlineCount,
      GroupsList.SetMemberChattingCount, GroupsList.SetMemberInGameCount, h']

/-- Witness for C7: all seven setters on identifier 5, absent from a
one-entry cache, leave it unchanged. -/
theorem claim_C7_witness :
    (({ byId := [(10, { steamId := 10, relationship := 2 })] } : GroupsList).ById 5 = none) ∧
    (({ byId := [(10, { steamId := 10, relationship := 2 })] } : GroupsList).SetName 5 "x" =
        { byId := [(10, { steamId := 10, relationship := 2 })] } ∧
      ({ byId := [(10, { steamId := 10, relationship := 2 })] } : GroupsList).SetAvatar 5 "y" =
        { byId := [(10, { steamId := 10, relationship := 2 })] } ∧
      ({ byId := [(10, { steamId := 10, relationship := 2 })] } : GroupsList).SetRelationship 5 4 =
        { byId := [(10, { steamId := 10, relationship := 2 })] } ∧
      ({ byId := [(10, { steamId := 10, relationship := 2 })] } : GroupsList).SetMemberTotalCount 5 7 =
        { byId := [(10, { steamId := 10, relationship := 2 })] } ∧
      ({ byId := [(10, { steamId := 10, relationship := 2 })] } : GroupsList).SetMemberOnlineCount 5 7 =
        { byId := [(10, { steamId := 10, relationship := 2 })] } ∧
      ({ byId := [(10, { steamId := 10, relationship := 2 })] } : GroupsList).SetMemberChattingCount 5 7 =
        { byId := [(10, { steamId := 10, relationship := 2 })] } ∧
      ({ byId := [(10, { steamId := 10, relationship := 2 })] } : GroupsList).SetMemberInGameCount 5 7 =
        { byId := [(10, { steamId := 10, relationship := 2 })] }) :=
  ⟨by decide,
    claim_C7_setters_missing_noop
      { byId := [(10, { steamId := 10, relationship := 2 })] }
      5 "x" "y" 4 7 7 7 7 (by decide)⟩

/-! ## Claim C9: Count and GetCopy keys track the present identifiers -/

/-- A sequence element for the Groups cache: one `Add` or `Remove`. -/
inductive GroupOp where
  | add (g : Group)
  | remove (id : Nat)

/-- A sequence element for the Chats cache: one `Add` or `Remove`. -/
inductive ChatOp where
  | add (c : Chat)
  | remove (id : Nat)

/-- Run a sequence of Add/Remove operations on the empty Groups cache. -/
def applyGroupOps (ops : List GroupOp) : GroupsList :=
  ops.foldl
    (fun gl op =>
      match op with
      | GroupOp.add g => gl.Add g
      | GroupOp.remove id => gl.Remove id)
    NewGroupsList

/-- Run a sequence of Add/Remove operations on the empty Chats cache. -/
def applyChatOps (ops : List ChatOp) : ChatsList :=
  ops.foldl
    (fun cl op =>
      match op with
      | ChatOp.add c => cl.Add c
      | ChatOp.remove id => cl.Remove id)
    NewChatsList

theorem applyGroupOps_nodup (ops : List GroupOp) :
    (alKeys (applyGroupOps ops).byId).Nodup := by
  suffices hgen : ∀ (gl : GroupsList), (alKeys gl.byId).Nodup →
      (alKeys (ops.foldl
        (fun gl op =>
          match op with
          | GroupOp.add g => gl.Add g
          | GroupOp.remove id => gl.Remove id) gl).byId).Nodup by
    exact hgen NewGroupsList (by simp [NewGroupsList, alKeys])
  induction ops with
  | nil => intro gl h; simpa using h
  | cons op rest ih =>
      intro gl h
      refine ih _ ?_
      cases op with
      | add g =>
          cases hv : alLookup g.steamId gl.byId with
          | none => simpa [GroupsList.Add, hv] using alKeys_nodup_upsert _ _ _ h
          | some val => simpa [GroupsList.Add, hv] using h
      | remove id => simpa [GroupsList.Remove] using alKeys_nodup_erase _ _ h

theorem applyChatOps_nodup (ops : List ChatOp) :
    (alKeys (applyChatOps ops).byId).Nodup := by
  suffices hgen : ∀ (cl : ChatsList), (alKeys cl.byId).Nodup →
      (alKeys (ops.foldl
        (fun cl op =>
          match op with
          | ChatOp.add c => cl.Add c
          | ChatOp.remove id => cl.Remove id) cl).byId).Nodup by
    exact hgen NewChatsList (by simp [NewChatsList, alKeys])
  induction ops with
  | nil => intro cl h; simpa using h
  | cons op rest ih =>
      intro cl h
      refine ih _ ?_
      cases op with
      | add c =>
          cases hv : alLookup c.steamId cl.byId with
          | none => simpa [ChatsList.Add, hv] using alKeys_nodup_upsert _ _ _ h
          | some val => simpa [ChatsList.Add, hv] using h
      | remove id => simpa [ChatsList.Remove] using alKeys_nodup_erase _ _ h

/-- C9: for every sequence of Add/Remove operations on an Entity Cache
(shown for the Groups and Chats caches) starting from the empty cache, the
key list is duplicate-free, `Count()` equals its length — i.e. the number
of distinct identifiers present — an identifier is present (`ById` finds
it) exactly when it is among the keys, and the key set of `GetCopy()` is
exactly that key set. -/
theorem claim_C9_count_and_copy_keys (gops : List GroupOp)
    (cops : List ChatOp) :
    (alKeys (applyGroupOps gops).byId).Nodup ∧
    (applyGroupOps gops).Count = (alKeys (applyGroupOps gops).byId).length ∧
    (∀ id, ((applyGroupOps gops).ById id).isSome ↔
      id ∈ alKeys (applyGroupOps gops).byId) ∧
    alKeys (applyGroupOps gops).GetCopy = alKeys (applyGroupOps gops).byId ∧
    (alKeys (applyChatOps cops).byId).Nodup ∧
    (applyChatOps cops).Count = (alKeys (applyChatOps cops).byId).length ∧
    (∀ id, ((applyChatOps cops).ById id).isSome ↔
      id ∈ alKeys (applyChatOps cops).byId) ∧
    alKeys (applyChatOps cops).GetCopy = alKeys (applyChatOps cops).byId := by
  refine ⟨applyGroupOps_nodup gops, ?_, ?_, rfl,
    applyChatOps_nodup cops, ?_, ?_, rfl⟩
  · simp [GroupsList.Count, alKeys]
  · intro id
    exact alLookup_isSome_iff id _
  · simp [ChatsList.Count, alKeys]
  · intro id
    exact alLookup_isSome_iff id _

/-! ## Claim C5: relationship "none" is never stored -/

theorem groupsMem_Add (gl : GroupsList) (g : Group) (p : Nat × Group)
    (hp : p ∈ (gl.Add g).byId) : p.2 = g ∨ p ∈ gl.byId := by
  cases hv : alLookup g.steamId gl.byId with
  | some val =>
      simp [GroupsList.Add, hv] at hp
      exact Or.inr hp
  | none =>
      simp [GroupsList.Add, hv] at hp
      rcases alMem_upsert _ _ _ _ hp with h | h
      · exact Or.inl (by rw [h])
      · exact Or.inr h

theorem friendsMem_Add (fl : FriendsList) (f : Friend) (p : Nat × Friend)
    (hp : p ∈ (fl.Add f).byId) : p.2 = f ∨ p ∈ fl.byId := by
  cases hv : alLookup f.steamId fl.byId with
  | some val =>
      simp [FriendsList.Add, hv] at hp
      exact Or.inr hp
  | none =>
      simp [FriendsList.Add, hv] at hp
      rcases alMem_upsert _ _ _ _ hp with h | h
      · exact Or.inl (by rw [h])
      · exact Or.inr h

/-- No stored Group or Friend record carries the "none" relationship. -/
def RelOk (s : Social) : Prop :=
  (∀ p ∈ s.groups.byId, p.2.relationship ≠ EClanRelationship_None) ∧
  (∀ p ∈ s.friends.byId, p.2.relationship ≠ EFriendRelationship_None)

theorem processFriendRecord_relOk (b : Bool) (s : Social) (fr : FriendEntry)
    (h : RelOk s) : RelOk (processFriendRecord b s fr).1 := by
  obtain ⟨hg, hf⟩ := h
  unfold processFriendRecord
  by_cases hc : GetAccountType fr.ulfriendid = EAccountType_Clan
  · by_cases hr : fr.efriendrelationship = EClanRelationship_None
    · simp only [hc, hr, if_true]
      exact ⟨fun p hp => hg p (alMem_erase _ _ _ hp), hf⟩
    · simp only [hc, hr, if_true, if_false]
      refine ⟨fun p hp => ?_, hf⟩
      rcases groupsMem_Add _ _ _ hp with h1 | h1
      · rw [h1]
        exact hr
      · exact hg p h1
  · by_cases hr : fr.efriendrelationship = EFriendRelationship_None
    · simp only [hc, hr, if_true, if_false]
      exact ⟨hg, fun p hp => hf p (alMem_erase _ _ _ hp)⟩
    · simp only [hc, hr, if_false]
      refine ⟨hg, fun p hp => ?_⟩
      rcases friendsMem_Add _ _ _ hp with h1 | h1
      · rw [h1]
        exact hr
      · exact hf p h1

theorem foldRecords_relOk (b : Bool) (l : List FriendEntry) (s : Social)
    (h : RelOk s) :
    RelOk (l.foldl (fun s2 fr => (processFriendRecord b s2 fr).1) s) := by
  induction l generalizing s with
  | nil => simpa using h
  | cons fr rest ih =>
      simp only [List.foldl_cons]
      exact ih _ (processFriendRecord_relOk b s fr h)

/-- The state component of `handleFriendsList` is the plain fold of the
per-record step over the batch. -/
theorem handleFriendsList_state (s : Social) (list : CMsgClientFriendsList) :
    (handleFriendsList s list).1 =
      list.friends.foldl
        (fun s2 fr => (processFriendRecord list.bincremental s2 fr).1) s := by
  have hfold : ∀ (b : Bool) (l : List FriendEntry) (s0 : Social)
      (evs : List Event),
      (l.foldl (fun (acc : Social × List Event) fr =>
          let res := processFriendRecord b acc.1 fr
          (res.1, acc.2 ++ res.2)) (s0, evs)).1 =
        l.foldl (fun s2 fr => (processFriendRecord b s2 fr).1) s0 := by
    intro b l
    induction l with
    | nil => intro s0 evs; rfl
    | cons fr rest ih => intro s0 evs; simpa using ih _ _
  unfold handleFriendsList
  by_cases hb : list.bincremental <;> simp [hb, hfold]

theorem applyFriendsLists_relOk (msgs : List CMsgClientFriendsList) :
    RelOk (applyFriendsLists msgs) := by
  suffices hgen : ∀ s, RelOk s →
      RelOk (msgs.foldl (fun s m => (handleFriendsList s m).1) s) by
    refine hgen newSocial ?_
    constructor <;> intro p hp <;> simp [newSocial, NewGroupsList, NewFriendsList, NewChatsList] at hp
  induction msgs with
  | nil => intro s h; simpa using h
  | cons m rest ih =>
      intro s h
      simp only [List.foldl_cons]
      refine ih _ ?_
      rw [handleFriendsList_state]
      exact foldRecords_relOk _ _ _ h

/-- C5: a relationship-list record carrying relationship "none" removes
the entry for its identifier from the matching cache (Groups for a
clan-typed identifier, Friends otherwise) and leaves no stored entry; and
after any sequence of relationship-list messages applied to the fresh
state, no stored Group or Friend record has relationship "none". -/
theorem claim_C5_none_never_stored (msgs : List CMsgClientFriendsList)
    (b : Bool) (s : Social) (frc frf : FriendEntry) (id : Nat) (g : Group)
    (f : Friend) :
    ((applyFriendsLists msgs).groups.ById id = some g →
      g.relationship ≠ EClanRelationship_None) ∧
    ((applyFriendsLists msgs).friends.ById id = some f →
      f.relationship ≠ EFriendRelationship_None) ∧
    (frc.efriendrelationship = EClanRelationship_None →
      GetAccountType frc.ulfriendid = EAccountType_Clan →
      (processFriendRecord b s frc).1.groups.ById frc.ulfriendid = none) ∧
    (frf.efriendrelationship = EFriendRelationship_None →
      GetAccountType frf.ulfriendid ≠ EAccountType_Clan →
      (processFriendRecord b s frf).1.friends.ById frf.ulfriendid = none) := by
  refine ⟨?_, ?_, ?_, ?_⟩
  · intro h
    exact (applyFriendsLists_relOk msgs).1 (id, g) (alLookup_mem _ _ _ h)
  · intro h
    exact (applyFriendsLists_relOk msgs).2 (id, f) (alLookup_mem _ _ _ h)
  · intro h1 h2
    simp [processFriendRecord, h1, h2, GroupsList.Remove, GroupsList.ById,
      alLookup_erase_self]
  · intro h1 h2
    simp [processFriendRecord, h1, h2, FriendsList.Remove, FriendsList.ById,
      alLookup_erase_self]

/-- Witness for C5: one full batch that first adds clan `7·2^52 + 1`
(relationship 2) and individual `2^52 + 1` (relationship 3); then
none-records for the same clan and the same individual processed on that
state delete both entries. -/
theorem claim_C5_witness :
    (applyFriendsLists
        [{ bincremental := false,
           friends := [{ ulfriendid := 7 * 2 ^ 52 + 1, efriendrelationship := 2 },
                       { ulfriendid := 2 ^ 52 + 1, efriendrelationship := 3 }] }]).groups.ById
        (7 * 2 ^ 52 + 1) =
      some { steamId := 7 * 2 ^ 52 + 1, relationship := 2 } ∧
    ({ steamId := 7 * 2 ^ 52 + 1, relationship := 2 } : Group).relationship ≠
      EClanRelationship_None ∧
    (processFriendRecord false
        (applyFriendsLists
          [{ bincremental := false,
             friends := [{ ulfriendid := 7 * 2 ^ 52 + 1, efriendrelationship := 2 },
                         { ulfriendid := 2 ^ 52 + 1, efriendrelationship := 3 }] }])
        { ulfriendid := 7 * 2 ^ 52 + 1, efriendrelationship := 0 }).1.groups.ById
      (7 * 2 ^ 52 + 1) = none ∧
    (processFriendRecord false
        (applyFriendsLists
          [{ bincremental := false,
             friends := [{ ulfriendid := 7 * 2 ^ 52 + 1, efriendrelationship := 2 },
                         { ulfriendid := 2 ^ 52 + 1, efriendrelationship := 3 }] }])
        { ulfriendid := 2 ^ 52 + 1, efriendrelationship := 0 }).1.friends.ById
      (2 ^ 52 + 1) = none := by
  have h := claim_C5_none_never_stored
    [{ bincremental := false,
       friends := [{ ulfriendid := 7 * 2 ^ 52 + 1, efriendrelationship := 2 },
                   { ulfriendid := 2 ^ 52 + 1, efriendrelationship := 3 }] }]
    false
    (applyFriendsLists
      [{ bincremental := false,
         friends := [{ ulfriendid := 7 * 2 ^ 52 + 1, efriendrelationship := 2 },
                     { ulfriendid := 2 ^ 52 + 1, efriendrelationship := 3 }] }])
    { ulfriendid := 7 * 2 ^ 52 + 1, efriendrelationship := 0 }
    { ulfriendid := 2 ^ 52 + 1, efriendrelationship := 0 }
    (7 * 2 ^ 52 + 1)
    { steamId := 7 * 2 ^ 52 + 1, relationship := 2 }
    { steamId := 0 }
  exact ⟨by decide, h.1 (by decide), h.2.2.1 (by decide) (by decide),
    h.2.2.2 (by decide) (by decide)⟩

/-! ## Claim C2: room entry does not replace an existing Chat entry -/

/-- `AddChatMember` never changes the `groupId` a `ById` read reports for
an already-present chat. -/
theorem ChatsList.ById_AddChatMember_groupId (cl : ChatsList) (id cid : Nat)
    (m : ChatMember) (gid : Nat)
    (h : (cl.ById cid).map (fun c => c.groupId) = some gid) :
    ((cl.AddChatMember id m).ById cid).map (fun c => c.groupId) = some gid := by
  by_cases hc : cid = id
  · subst hc
    cases hv : alLookup cid cl.byId with
    | none => simp [ChatsList.ById, hv] at h
    | some c =>
        have hg : c.groupId = gid := by simpa [ChatsList.ById, hv] using h
        cases hm : c.chatMembers with
        | some ref =>
            simp [ChatsList.AddChatMember, hv, hm, ChatsList.ById,
              alLookup_upsert_self, hg]
        | none =>
            simp [ChatsList.AddChatMember, hv, hm, ChatsList.ById,
              alLookup_upsert_self, hg]
  · have hne : cid ≠ id := hc
    cases hv : alLookup id cl.byId with
    | none =>
        simpa [ChatsList.AddChatMember, hv, ChatsList.ById,
          alLookup_upsert_ne id cid _ _ hne] using h
    | some c =>
        cases hm : c.chatMembers with
        | some ref =>
            simpa [ChatsList.AddChatMember, hv, hm, ChatsList.ById,
              alLookup_upsert_ne id cid _ _ hne] using h
        | none =>
            simpa [ChatsList.AddChatMember, hv, hm, ChatsList.ById,
              alLookup_upsert_ne id cid _ _ hne] using h

theorem chatEnterLoop_groupId (chatID : Nat) (n : Nat) (cl : ChatsList)
    (r : List Nat) (gid : Nat)
    (h : (cl.ById chatID).map (fun c => c.groupId) = some gid) :
    (((chatEnterLoop chatID n cl r).1.ById chatID).map (fun c => c.groupId)) =
      some gid := by
  induction n generalizing cl r with
  | zero => simpa [chatEnterLoop] using h
  | succ k ih =>
      simp only [chatEnterLoop]
      exact ih _ _ (ChatsList.ById_AddChatMember_groupId _ _ _ _ _ h)

/-- C2 counterexample: a Chat entry for room 1 with owning clan 5 already
exists; a room-entry message for room 1 carrying clan 7 leaves the stored
clan id at 5 — the handler's `Add` is add-if-absent, it does not replace
the existing entry with the message's clan identifier. -/
theorem claim_C2_counterexample :
    ((handleChatEnter
        { newSocial with chats := NewChatsList.Add { steamId := 1, groupId := 5 } }
        { steamIdChat := 1, steamIdClan := 7 } [0, 0]).1.chats.ById 1).map
      (fun c => c.groupId) = some 5 ∧ (5 : Nat) ≠ 7 := by
  constructor
  · decide
  · decide

/-- C2 amended: the room-entry handler creates the Chat entry for the
target room with the message's clan identifier only when no entry exists;
when an entry already exists it is left as it was, so the stored
owning-clan identifier after processing is the message's clan id exactly
in the absent case and the pre-existing clan id otherwise. -/
theorem claim_C2_amended (s : Social) (body : MsgClientChatEnter)
    (payload : List Nat) :
    (((handleChatEnter s body payload).1.chats.ById body.steamIdChat).map
        (fun c => c.groupId)) =
      some (match s.chats.ById body.steamIdChat with
        | none => body.steamIdClan
        | some c => c.groupId) := by
  unfold handleChatEnter
  simp only []
  apply chatEnterLoop_groupId
  cases hv : alLookup body.steamIdChat s.chats.byId with
  | none =>
      simp [ChatsList.Add, hv, ChatsList.ById, alLookup_upsert_self]
  | some c =>
      simp [ChatsList.Add, hv, ChatsList.ById]

/-! ## Claim C6: adding the same member twice is idempotent -/

/-- Adding a member upserts it into the roster observed for that chat. -/
theorem ChatsList.rosterOf_AddChatMember (cl : ChatsList) (id : Nat)
    (m : ChatMember) :
    (cl.AddChatMember id m).rosterOf id =
      alUpsert m.steamId m (cl.rosterOf id) := by
  cases hv : alLookup id cl.byId with
  | none =>
      simp [ChatsList.AddChatMember, hv, ChatsList.rosterOf,
        ChatsList.derefRoster, alLookup_upsert_self]
  | some c =>
      cases hm : c.chatMembers with
      | none =>
          simp [ChatsList.AddChatMember, hv, hm, ChatsList.rosterOf,
            ChatsList.derefRoster, alLookup_upsert_self]
      | some ref =>
          simp [ChatsList.AddChatMember, hv, hm, ChatsList.rosterOf,
            ChatsList.derefRoster, alLookup_upsert_self]

theorem ChatsList.AddChatMember_idem (cl : ChatsList) (id : Nat)
    (m : ChatMember) :
    (cl.AddChatMember id m).AddChatMember id m = cl.AddChatMember id m := by
  cases hv : alLookup id cl.byId with
  | none =>
      simp [ChatsList.AddChatMember, hv, alLookup_upsert_self, alUpsert_idem]
  | some c =>
      cases hm : c.chatMembers with
      | none =>
          simp [ChatsList.AddChatMember, hv, hm, alLookup_upsert_self,
            alUpsert_idem]
      | some ref =>
          simp [ChatsList.AddChatMember, hv, hm, alLookup_upsert_self,
            alUpsert_idem]

theorem ChatsList.RemoveChatMember_idem (cl : ChatsList) (id mid : Nat) :
    (cl.RemoveChatMember id mid).RemoveChatMember id mid =
      cl.RemoveChatMember id mid := by
  cases hv : alLookup id cl.byId with
  | none => simp [ChatsList.RemoveChatMember, hv]
  | some c =>
      cases hm : c.chatMembers with
      | none => simp [ChatsList.RemoveChatMember, hv, hm]
      | some ref =>
          simp [ChatsList.RemoveChatMember, hv, hm, alLookup_upsert_self,
            alUpsert_idem, alErase_idem]

/-- Re-processing the same member-info packet leaves the state of the
first processing unchanged (events are re-emitted, state is idempotent). -/
theorem handleChatMemberInfo_state_idem (s : Social)
    (body : MsgClientChatMemberInfo) (payload : List Nat) :
    (handleChatMemberInfo (handleChatMemberInfo s body payload).1 body
        payload).1 =
      (handleChatMemberInfo s body payload).1 := by
  by_cases ht : body.infoType = EChatInfoType_StateChange
  · by_cases he : (ReadInt32D (ReadUint64D payload).2).1 =
        EChatMemberStateChange_Entered
    · simp [handleChatMemberInfo, ht, he, ChatsList.AddChatMember_idem]
    · by_cases hl : (ReadInt32D (ReadUint64D payload).2).1 =
            EChatMemberStateChange_Banned ∨
          (ReadInt32D (ReadUint64D payload).2).1 =
            EChatMemberStateChange_Kicked ∨
          (ReadInt32D (ReadUint64D payload).2).1 =
            EChatMemberStateChange_Disconnected ∨
          (ReadInt32D (ReadUint64D payload).2).1 =
            EChatMemberStateChange_Left
      · simp [handleChatMemberInfo, ht, he, hl, ChatsList.RemoveChatMember_idem]
      · simp [handleChatMemberInfo, ht, he, hl]
  · simp [handleChatMemberInfo, ht]

/-- C6: `AddChatMember` upserts with overwrite semantics — applying the
same add twice equals applying it once, and afterwards the chat's roster
holds exactly one entry for that member (given the observed roster's keys
were duplicate-free, as every reachable roster's are); re-processing the
same "entered" member-info packet is likewise state-idempotent. -/
theorem claim_C6_roster_idempotent (cl : ChatsList) (id : Nat)
    (m : ChatMember) (s : Social) (body : MsgClientChatMemberInfo)
    (payload : List Nat) (h : (alKeys (cl.rosterOf id)).Nodup) :
    (cl.AddChatMember id m).AddChatMember id m = cl.AddChatMember id m ∧
    alLookup m.steamId ((cl.AddChatMember id m).rosterOf id) = some m ∧
    alCountKey m.steamId ((cl.AddChatMember id m).rosterOf id) = 1 ∧
    (handleChatMemberInfo (handleChatMemberInfo s body payload).1 body
        payload).1 =
      (handleChatMemberInfo s body payload).1 := by
  refine ⟨ChatsList.AddChatMember_idem cl id m, ?_, ?_,
    handleChatMemberInfo_state_idem s body payload⟩
  · rw [ChatsList.rosterOf_AddChatMember]
    exact alLookup_upsert_self _ _ _
  · rw [ChatsList.rosterOf_AddChatMember]
    exact alCountKey_upsert_nodup _ _ _ h

/-- Witness for C6: member 2 added twice to chat 1 of the fresh cache,
and an "entered" member-info packet for chat 1 processed twice. -/
theorem claim_C6_witness :
    (alKeys (NewChatsList.rosterOf 1)).Nodup ∧
    ((NewChatsList.AddChatMember 1 { steamId := 2 }).AddChatMember 1
        { steamId := 2 } =
      NewChatsList.AddChatMember 1 { steamId := 2 } ∧
    alLookup 2 ((NewChatsList.AddChatMember 1 { steamId := 2 }).rosterOf 1) =
      some { steamId := 2 } ∧
    alCountKey 2 ((NewChatsList.AddChatMember 1 { steamId := 2 }).rosterOf 1) =
      1 ∧
    (handleChatMemberInfo
        (handleChatMemberInfo newSocial { steamIdChat := 1, infoType := 1 }
          []).1
        { steamIdChat := 1, infoType := 1 } []).1 =
      (handleChatMemberInfo newSocial { steamIdChat := 1, infoType := 1 }
        []).1) :=
  ⟨by decide,
    claim_C6_roster_idempotent NewChatsList 1 { steamId := 2 } newSocial
      { steamIdChat := 1, infoType := 1 } [] (by decide)⟩

/-! ## Claim C8: copies and the shared roster reference -/

/-- C8 counterexample: the cache holds chat 1 whose roster contains
member 2; after `GetCopy`, adding member 3 to chat 1 changes the roster
read through the previously returned copy (the copied `Chat` struct
carries the same roster-map reference), so the copy is not independent of
later `AddChatMember` mutations. -/
theorem claim_C8_counterexample :
    (((NewChatsList.Add { steamId := 1, groupId := 5 }).AddChatMember 1
        { steamId := 2 }).GetCopy.map
      (fun p => (p.1,
        (((NewChatsList.Add { steamId := 1, groupId := 5 }).AddChatMember 1
            { steamId := 2 }).AddChatMember 1
          { steamId := 3 }).derefRoster p.2))) ≠
    (((NewChatsList.Add { steamId := 1, groupId := 5 }).AddChatMember 1
        { steamId := 2 }).GetCopy.map
      (fun p => (p.1,
        ((NewChatsList.Add { steamId := 1, groupId := 5 }).AddChatMember 1
          { steamId := 2 }).derefRoster p.2))) := by
  decide

/-- C8 amended: copies are independent of the top-level mutations `Add`
and `Remove` (they never touch roster storage), and `Group` copies are
plain values; but a copied `Chat` whose roster map existed at copy time
shares that roster with the cache, so `AddChatMember` and
`RemoveChatMember` on that chat are visible through the previously
returned copy. -/
theorem claim_C8_copy_aliasing (cl : ChatsList) (c c2 c3 : Chat)
    (i id : Nat) (m : ChatMember) (ref : Nat)
    (h1 : alLookup id cl.byId = some c) (h2 : c.chatMembers = some ref) :
    (cl.Add c3).derefRoster c2 = cl.derefRoster c2 ∧
    (cl.Remove i).derefRoster c2 = cl.derefRoster c2 ∧
    (cl.AddChatMember id m).derefRoster c =
      some (alUpsert m.steamId m ((alLookup ref cl.rosterHeap).getD [])) ∧
    (cl.RemoveChatMember id m.steamId).derefRoster c =
      some (alErase m.steamId ((alLookup ref cl.rosterHeap).getD [])) := by
  refine ⟨?_, ?_, ?_, ?_⟩
  · cases hv : alLookup c3.steamId cl.byId with
    | some val => simp [ChatsList.Add, hv]
    | none => simp [ChatsList.Add, hv, ChatsList.derefRoster]
  · simp [ChatsList.Remove, ChatsList.derefRoster]
  · simp [ChatsList.AddChatMember, h1, h2, ChatsList.derefRoster,
      alLookup_upsert_self]
  · simp [ChatsList.RemoveChatMember, h1, h2, ChatsList.derefRoster,
      alLookup_upsert_self]

/-- Witness for C8 at the cache holding chat 1 (roster reference 0 with
member 2): the top-level operations leave the observed copy alone while
member mutations show through it. -/
theorem claim_C8_witness :
    (alLookup 1 ((NewChatsList.Add { steamId := 1, groupId := 5 }).AddChatMember 1
        { steamId := 2 }).byId =
      some { steamId := 1, groupId := 5, chatMembers := some 0 }) ∧
    (({ steamId := 1, groupId := 5, chatMembers := some 0 } : Chat).chatMembers =
      some 0) ∧
    ((((NewChatsList.Add { steamId := 1, groupId := 5 }).AddChatMember 1
          { steamId := 2 }).Add { steamId := 4 }).derefRoster
        { steamId := 1, groupId := 5, chatMembers := some 0 } =
      ((NewChatsList.Add { steamId := 1, groupId := 5 }).AddChatMember 1
        { steamId := 2 }).derefRoster
        { steamId := 1, groupId := 5, chatMembers := some 0 } ∧
    (((NewChatsList.Add { steamId := 1, groupId := 5 }).AddChatMember 1
          { steamId := 2 }).Remove 1).derefRoster
        { steamId := 1, groupId := 5, chatMembers := some 0 } =
      ((NewChatsList.Add { steamId := 1, groupId := 5 }).AddChatMember 1
        { steamId := 2 }).derefRoster
        { steamId := 1, groupId := 5, chatMembers := some 0 } ∧
    (((NewChatsList.Add { steamId := 1, groupId := 5 }).AddChatMember 1
          { steamId := 2 }).AddChatMember 1 { steamId := 3 }).derefRoster
        { steamId := 1, groupId := 5, chatMembers := some 0 } =
      some (alUpsert 3 { steamId := 3 }
        ((alLookup 0 ((NewChatsList.Add { steamId := 1, groupId := 5 }).AddChatMember 1
            { steamId := 2 }).rosterHeap).getD [])) ∧
    (((NewChatsList.Add { steamId := 1, groupId := 5 }).AddChatMember 1
          { steamId := 2 }).RemoveChatMember 1 3).derefRoster
        { steamId := 1, groupId := 5, chatMembers := some 0 } =
      some (alErase 3
        ((alLookup 0 ((NewChatsList.Add { steamId := 1, groupId := 5 }).AddChatMember 1
            { steamId := 2 }).rosterHeap).getD []))) :=
  ⟨by decide, by decide,
    claim_C8_copy_aliasing
      ((NewChatsList.Add { steamId := 1, groupId := 5 }).AddChatMember 1
        { steamId := 2 })
      { steamId := 1, groupId := 5, chatMembers := some 0 }
      { steamId := 1, groupId := 5, chatMembers := some 0 }
      { steamId := 4 } 1 1 { steamId := 3 } 0 (by decide) (by decide)⟩

/-! ## Claim C1: the decoder on an exhausted cursor -/

/-- Room-entry header for the truncation scenario: room 1, clan 9, two
advertised members. -/
def chatEnterTruncBody : MsgClientChatEnter :=
  { steamIdChat := 1, steamIdClan := 9, numMembers := 2 }

/-- Payload for the truncation scenario: empty room name, the reserved
byte, one complete member record (member 2, permissions 5 and 3) with its
6 trailing reserved bytes, and nothing at all for the advertised second
member. -/
def chatEnterTruncPayload : List Nat :=
  [0, 0] ++
    ([0, 7, 0] ++ [2, 0, 0, 0, 0, 0, 0, 0] ++ [2, 0] ++ [5, 0, 0, 0] ++
      [2, 0] ++ [3, 0, 0, 0]) ++
    [9, 9, 9, 9, 9, 9]

/-- A complete member record for one cursor: member 2 with permissions 5
and 3. -/
def goodMemberCursor : List Nat :=
  [0, 7, 0] ++ [2, 0, 0, 0, 0, 0, 0, 0] ++ [2, 0] ++ [5, 0, 0, 0] ++
    [2, 0] ++ [3, 0, 0, 0]

/-- C1 counterexample: the empty cursor is exhausted before the member
layout completes (`readChatMemberSpec [] = none` is the spec's
MalformedRecord case), yet the decode operation the code performs,
`readChatMember`, does not fail — its result type has no error outcome at
all (every reader error is discarded at the call sites) and it returns
the member record `(0, 0, 0)`. -/
theorem claim_C1_counterexample :
    readChatMemberSpec [] = none ∧ readChatMember [] = ((0, 0, 0), []) := by
  constructor
  · rfl
  · rfl

/-- C1 amended: `readChatMember` never fails: on every cursor where the
spec-worded decoder succeeds the code returns the same record and
advanced cursor, and on a cursor exhausted before the layout completes it
still returns a member record whose unread fields are zero (shown at the
empty cursor); in a bulk roster load truncated mid-record the members
decoded from the complete records remain applied — below, member 2 stays
in the roster and a zero-valued record stands in for the truncated
second one. -/
theorem claim_C1_decoder_total (c : List Nat)
    (v : (Nat × Int × Int) × List Nat) (h : readChatMemberSpec c = some v) :
    readChatMember c = v ∧
    readChatMember [] = ((0, 0, 0), []) ∧
    readChatMemberSpec [] = none ∧
    (handleChatEnter newSocial chatEnterTruncBody
        chatEnterTruncPayload).1.chats.rosterOf 1 =
      [(2, { steamId := 2, chatPermissions := 5, clanPermissions := 3 }),
       (0, { steamId := 0 })] := by
  refine ⟨?_, rfl, rfl, by decide⟩
  simp only [readChatMemberSpec, Option.bind_eq_some, Option.map_eq_some'] at h
  obtain ⟨p1, e1, p2, e2, p3, e3, p4, e4, p5, e5, p6, e6, p7, e7, p8, e8,
    p9, e9, p10, e10, hv⟩ := h
  simp [readChatMember, ReadStringD, ReadByteD, ReadUint64D, ReadInt32D,
    e1, e2, e3, e4, e5, e6, e7, e8, e9, e10, ← hv]

/-- Witness for C1 at a complete member cursor (the spec decoder succeeds
there and the code agrees), together with the closed truncation facts. -/
theorem claim_C1_witness :
    readChatMemberSpec goodMemberCursor = some ((2, 5, 3), []) ∧
    (readChatMember goodMemberCursor = ((2, 5, 3), []) ∧
      readChatMember [] = ((0, 0, 0), []) ∧
      readChatMemberSpec [] = none ∧
      (handleChatEnter newSocial chatEnterTruncBody
          chatEnterTruncPayload).1.chats.rosterOf 1 =
        [(2, { steamId := 2, chatPermissions := 5, clanPermissions := 3 }),
         (0, { steamId := 0 })]) :=
  ⟨by decide, claim_C1_decoder_total goodMemberCursor ((2, 5, 3), [])
    (by decide)⟩

/-! ## Claim C10: friend messages are truncated at the first null byte -/

theorem bytesSplit_ne_nil (l : List Nat) : bytesSplit l ≠ [] := by
  cases l with
  | nil => simp [bytesSplit]
  | cons b rest =>
      by_cases hb : b = 0
      · simp [bytesSplit, hb]
      · simp only [bytesSplit, hb, if_false]
        cases hbs : bytesSplit rest with
        | nil => simp
        | cons h t => simp

theorem bytesSplit_headD (l : List Nat) :
    (bytesSplit l).headD [] = l.takeWhile (fun b => b != 0) := by
  induction l with
  | nil => simp [bytesSplit]
  | cons b rest ih =>
      by_cases hb : b = 0
      · simp [bytesSplit, hb]
      · cases hbs : bytesSplit rest with
        | nil => exact absurd hbs (bytesSplit_ne_nil rest)
        | cons h t =>
            rw [hbs] at ih
            simp only [List.headD] at ih
            simp [bytesSplit, hb, hbs, ih]

/-- C10: for every incoming friend direct message, the handler emits a
chat-message event whose text is the payload truncated at the first null
byte, and it mutates no cache — the state it returns is exactly the state
it was given. -/
theorem claim_C10_friend_msg_truncation (s : Social)
    (body : CMsgClientFriendMsgIncoming) :
    (handleFriendMsg s body).1 = s ∧
    (handleFriendMsg s body).2 =
      Event.chatMsg 0 body.steamidFrom
        (body.message.takeWhile (fun b => b != 0)) body.chatEntryType
        body.rtime32ServerTimestamp := by
  refine ⟨rfl, ?_⟩
  simp only [handleFriendMsg]
  rw [bytesSplit_headD]

/-! ## Claim C3: follow-up info request after a full batch -/

/-- The scenario batch: one individual (account type 1, relationship
friend) and one clan (account type 7, relationship member), full
(non-incremental). -/
def c3Batch : CMsgClientFriendsList :=
  { bincremental := false,
    friends :=
      [{ ulfriendid := 2 ^ 56 + 2 ^ 52 + 2 ^ 32 + 1, efriendrelationship := 3 },
       { ulfriendid := 2 ^ 56 + 7 * 2 ^ 52 + 42, efriendrelationship := 2 }] }

/-- C3 counterexample: on the one-individual-plus-one-clan full batch the
follow-up info request carries BOTH identifiers — the accumulation
`friends = append(friends, steamID)` sits outside the clan/individual
branches — not the individual's identifier only as the claim states. -/
theorem claim_C3_counterexample :
    (handleFriendsList newSocial c3Batch).2.2 =
      [RequestFriendListInfo
        [2 ^ 56 + 2 ^ 52 + 2 ^ 32 + 1, 2 ^ 56 + 7 * 2 ^ 52 + 42]
        EClientPersonaStateFlag_DefaultInfoRequest] ∧
    (handleFriendsList newSocial c3Batch).2.2 ≠
      [RequestFriendListInfo [2 ^ 56 + 2 ^ 52 + 2 ^ 32 + 1]
        EClientPersonaStateFlag_DefaultInfoRequest] := by
  constructor
  · decide
  · decide

/-- C3 amended: for every full (non-incremental) relationship-list batch
the handler issues exactly one follow-up info request carrying the
identifiers of all records of the batch, clans included; on the
one-individual-plus-one-clan batch the request holds both identifiers,
with Friends.Count() = 1 and Groups.Count() = 1 afterwards. -/
theorem claim_C3_followup_request (s : Social) (list : CMsgClientFriendsList)
    (h : list.bincremental = false) :
    (handleFriendsList s list).2.2 =
      [RequestFriendListInfo (list.friends.map (fun fr => fr.ulfriendid))
        EClientPersonaStateFlag_DefaultInfoRequest] ∧
    (handleFriendsList newSocial c3Batch).1.friends.Count = 1 ∧
    (handleFriendsList newSocial c3Batch).1.groups.Count = 1 := by
  refine ⟨?_, by decide, by decide⟩
  simp [handleFriendsList, h, RequestFriendListInfo]

/-- Witness for C3 at the scenario batch itself. -/
theorem claim_C3_witness :
    c3Batch.bincremental = false ∧
    ((handleFriendsList newSocial c3Batch).2.2 =
      [RequestFriendListInfo (c3Batch.friends.map (fun fr => fr.ulfriendid))
        EClientPersonaStateFlag_DefaultInfoRequest] ∧
    (handleFriendsList newSocial c3Batch).1.friends.Count = 1 ∧
    (handleFriendsList newSocial c3Batch).1.groups.Count = 1) :=
  ⟨rfl, claim_C3_followup_request newSocial c3Batch rfl⟩

end GoSteam
